import Mathlib

/-!
Verification of the `shared-rs` repository (`src/lib.rs`), which provides
`Shared<T>`, a wrapper around `Rc<RefCell<T>>`.

Shallow embedding: a `Shared<T>` handle is the identifier of its backing
allocation; the heap maps allocation identifiers to the stored value
(`val`, `none` when the allocation is absent or already destroyed) and to
the strong reference count (`rc`).  Allocation identifiers are never
reused (`next` is a fresh-id counter), mirroring the fact that two live
`Rc` allocations always have distinct addresses.

Each Rust operation of `src/lib.rs` is translated into a Lean function on
this heap:
  * `Shared::new`            -> `Shared.new`
  * `Rc::strong_count` (via `Shared::use_count`) -> `Shared.use_count`
  * `Clone for Shared`       -> `Shared.clone`
  * `Deref for Shared`       -> `Shared.deref`
  * `DerefMut for Shared` (a write through it) -> `Shared.write`
  * in-place `*h += 1` through `DerefMut`/`AsMut` -> `Shared.mutate`
  * `PartialEq for Shared` (address comparison) -> `Shared.idEq`
  * `From<T> for Shared<T>`  -> `Shared.fromValue`
  * `Default for Shared`     -> `Shared.defaultNew`
  * dropping a handle (`Rc`'s destructor)      -> `Shared.dropHandle`
  * `Debug for Shared`       -> `Shared.debugFmt`
  * the `shared!` macro, multi-value arm       -> `sharedMultiMacro`
-/

namespace SharedRs

/-- Pointwise update of a function `Nat → α`, used for heap updates. -/
def upd {α : Type} (f : Nat → α) (i : Nat) (a : α) : Nat → α :=
  fun n => if n = i then a else f n

/-- The heap of reference-counted allocations backing `Shared` handles.
`val p` is the value stored in allocation `p` (`none` if `p` was never
allocated or was destroyed), `rc p` its strong reference count, and
`next` the next fresh allocation identifier. -/
structure Heap (V : Type) where
  next : Nat
  val : Nat → Option V
  rc : Nat → Nat

/-- A `Shared<T>` handle: the identifier of its backing allocation. -/
abbrev Handle := Nat

/-- The empty heap: nothing allocated yet. -/
def Heap.empty (V : Type) : Heap V :=
  ⟨0, fun _ => none, fun _ => 0⟩

namespace Shared

variable {V : Type}

/-- `Shared::new(value)`: `Rc::new(RefCell::new(value))` — allocate fresh
storage holding `value` with strong count 1. -/
def new (v : V) (h : Heap V) : Handle × Heap V :=
  (h.next, ⟨h.next + 1, upd h.val h.next (some v), upd h.rc h.next 1⟩)

/-- `Shared::use_count(&self)`: `Rc::strong_count(&self.data)`. -/
def use_count (p : Handle) (h : Heap V) : Nat :=
  h.rc p

/-- `Clone for Shared`: `From::from(self.data.clone())` — the new handle
aliases the same allocation and the strong count is incremented. -/
def clone (p : Handle) (h : Heap V) : Handle × Heap V :=
  (p, { h with rc := upd h.rc p (h.rc p + 1) })

/-- `Deref for Shared`: read the wrapped value through
`&*self.data.as_ptr()`. -/
def deref (p : Handle) (h : Heap V) : Option V :=
  h.val p

/-- A write of `v` through `DerefMut for Shared`
(`&mut *self.data.as_ptr()`): the allocation's value is overwritten in
place. -/
def write (p : Handle) (v : V) (h : Heap V) : Heap V :=
  { h with val := upd h.val p (some v) }

/-- An in-place read-modify-write through `DerefMut`/`AsMut`
(e.g. `*item += 1`). -/
def mutate (p : Handle) (f : V → V) (h : Heap V) : Heap V :=
  { h with val := upd h.val p (Option.map f (h.val p)) }

/-- `PartialEq for Shared`: `self.as_ref() as *const T == other.as_ref()
as *const T` — address identity of the backing allocation, never value
comparison.  Two live allocations coincide in address exactly when they
are the same allocation, so this is identity of allocation ids. -/
def idEq (p q : Handle) : Bool :=
  p == q

/-- `From<T> for Shared<T>`: `Shared::new(value)`. -/
def fromValue (v : V) (h : Heap V) : Handle × Heap V :=
  new v h

/-- `Default for Shared`: `Shared::new(Default::default())`; `d` is the
value produced by `T::default()`. -/
def defaultNew (d : V) (h : Heap V) : Handle × Heap V :=
  new d h

/-- Dropping a handle: `Rc`'s destructor decrements the strong count and,
when it reaches zero, destroys the wrapped value and the allocation. -/
def dropHandle (p : Handle) (h : Heap V) : Heap V :=
  if h.rc p ≤ 1 then
    { h with rc := upd h.rc p 0, val := upd h.val p none }
  else
    { h with rc := upd h.rc p (h.rc p - 1) }

/-- `Debug for Shared`: formats `"Shared {{ data: {:?} }}"` of the inner
`Rc<RefCell<T>>`, reading the wrapped value; `f` renders `T`'s own debug
form.  Returned together with the (unchanged) heap, in state-passing
style, so that its frame effect can be stated. -/
def debugFmt (f : V → String) (p : Handle) (h : Heap V) : String × Heap V :=
  (match h.val p with
    | some v => "Shared \x7b data: RefCell \x7b value: " ++ f v ++ " \x7d \x7d"
    | none => "Shared \x7b data: RefCell \x7b value: <destroyed> \x7d \x7d", h)

/-- `use_count` in state-passing style (it reads the count and returns,
leaving the heap untouched). -/
def use_countS (p : Handle) (h : Heap V) : Nat × Heap V :=
  (use_count p h, h)

/-- `PartialEq` in state-passing style. -/
def idEqS (p q : Handle) (h : Heap V) : Bool × Heap V :=
  (idEq p q, h)

/-- `Deref` in state-passing style. -/
def derefS (p : Handle) (h : Heap V) : Option V × Heap V :=
  (deref p h, h)

/-- Iterated cloning: `n` successive `clone()` calls starting from `p`,
each applied to the handle returned by the previous one. -/
def cloneN : Nat → Handle → Heap V → Handle × Heap V
  | 0, p, h => (p, h)
  | n + 1, p, h =>
      let r := clone p h
      cloneN n r.1 r.2

end Shared

/-- The multi-value arm of the `shared!` macro:
`Shared::<&[i32]>::new(&[v1, ..., vk])` — it always builds a handle whose
wrapped value is a fixed-size view of `i32` values (modelled as
`List Int`), whatever the number of literals. -/
def sharedMultiMacro (vs : List Int) (h : Heap (List Int)) :
    Handle × Heap (List Int) :=
  Shared.new vs h

/-- A user-visible action on shared handles: constructing a fresh handle
(`Shared::new`), cloning a held handle, dropping a held handle, or
writing through a held handle.  Cloning, dropping and writing take
effect only for a handle the user currently holds. -/
inductive Op (V : Type) where
  | alloc (v : V)
  | dup (p : Handle)
  | free (p : Handle)
  | store (p : Handle) (v : V)

/-- A program configuration: the multiset of live handles currently held
(as a list) together with the heap of allocations. -/
structure Config (V : Type) where
  live : List Handle
  heap : Heap V

/-- The initial configuration: no handles, empty heap. -/
def Config.empty (V : Type) : Config V :=
  ⟨[], Heap.empty V⟩

/-- One action.  `alloc` pushes the fresh handle; `dup` pushes the alias
and bumps the count; `free` drops one held copy of the handle (running
`Rc`'s destructor); `store` writes through a held handle. -/
def step {V : Type} (c : Config V) : Op V → Config V
  | .alloc v =>
      let r := Shared.new v c.heap
      ⟨r.1 :: c.live, r.2⟩
  | .dup p =>
      if p ∈ c.live then
        let r := Shared.clone p c.heap
        ⟨r.1 :: c.live, r.2⟩
      else c
  | .free p =>
      if p ∈ c.live then ⟨c.live.erase p, Shared.dropHandle p c.heap⟩ else c
  | .store p v =>
      if p ∈ c.live then ⟨c.live, Shared.write p v c.heap⟩ else c

/-- Run a list of actions from a configuration. -/
def run {V : Type} (ops : List (Op V)) (c : Config V) : Config V :=
  ops.foldl step c

/-- The reference-counting invariant: every allocation's strong count
equals the number of live handles aliasing it; an allocation holds a
value exactly while its count is nonzero (it is destroyed precisely when
the count reaches zero); and identifiers at or beyond `next` are
unallocated. -/
def Inv {V : Type} (c : Config V) : Prop :=
  (∀ p, c.heap.rc p = c.live.count p) ∧
  (∀ p, (c.heap.val p).isSome ↔ c.heap.rc p ≠ 0) ∧
  (∀ p, c.heap.next ≤ p → c.heap.rc p = 0)

end SharedRs

namespace SharedRs

open Shared

theorem Inv_empty (V : Type) : Inv (Config.empty V) := by
  refine ⟨fun p => rfl, fun p => by simp [Config.empty, Heap.empty], fun p _ => rfl⟩

theorem Inv_step {V : Type} (c : Config V) (op : Op V) (hc : Inv c) :
    Inv (step c op) := by
  obtain ⟨h1, h2, h3⟩ := hc
  cases op with
  | alloc v =>
      refine ⟨fun p => ?_, fun p => ?_, fun p hp => ?_⟩
      · by_cases hpn : p = c.heap.next
        · subst hpn
          have hz : c.live.count c.heap.next = 0 := by
            rw [← h1]; exact h3 _ (Nat.le_refl _)
          simp [step, Shared.new, upd, List.count_cons_self, ← h1, h3 _ (Nat.le_refl _)]
        · simp [step, Shared.new, upd, hpn, h1 p, List.count_cons_of_ne hpn]
      · by_cases hpn : p = c.heap.next
        · subst hpn; simp [step, Shared.new, upd]
        · simp [step, Shared.new, upd, hpn, h2 p]
      · simp only [step, Shared.new] at hp ⊢
        have hne : p ≠ c.heap.next := by
          intro hEq; subst hEq; exact Nat.not_succ_le_self _ hp
        simp [upd, hne]
        exact h3 p (Nat.le_of_succ_le hp)
  | dup p' =>
      by_cases hm : p' ∈ c.live
      · have hcnt : 0 < c.live.count p' := List.count_pos_iff.mpr hm
        refine ⟨fun p => ?_, fun p => ?_, fun p hp => ?_⟩
        · by_cases hpp : p = p'
          · subst hpp
            simp [step, hm, Shared.clone, upd, h1 p, List.count_cons_self]
          · simp [step, hm, Shared.clone, upd, hpp, h1 p,
              List.count_cons_of_ne hpp]
        · by_cases hpp : p = p'
          · subst hpp
            have hrc : c.heap.rc p ≠ 0 := by
              rw [h1]; exact Nat.pos_iff_ne_zero.mp hcnt
            simp [step, hm, Shared.clone, upd, (h2 p).mpr hrc]
          · simp [step, hm, Shared.clone, upd, hpp, h2 p]
        · simp only [step, hm, if_true, Shared.clone] at hp ⊢
          have hne : p ≠ p' := by
            intro hEq; subst hEq
            have : c.heap.rc p = 0 := h3 p hp
            rw [h1] at this
            omega
          simp [upd, hne]
          exact h3 p hp
      · simpa [step, hm] using ⟨h1, h2, h3⟩
  | free p' =>
      by_cases hm : p' ∈ c.live
      · have hcnt : 0 < c.live.count p' := List.count_pos_iff.mpr hm
        have hrc : c.heap.rc p' = c.live.count p' := h1 p'
        by_cases hone : c.heap.rc p' ≤ 1
        · have hrc1 : c.heap.rc p' = 1 := by omega
          refine ⟨fun p => ?_, fun p => ?_, fun p hp => ?_⟩
          · by_cases hpp : p = p'
            · subst hpp
              simp [step, hm, Shared.dropHandle, hone, upd,
                List.count_erase_self]
              omega
            · simp [step, hm, Shared.dropHandle, hone, upd, hpp, h1 p,
                List.count_erase_of_ne hpp]
          · by_cases hpp : p = p'
            · subst hpp
              simp [step, hm, Shared.dropHandle, hone, upd]
            · simp [step, hm, Shared.dropHandle, hone, upd, hpp, h2 p]
          · simp only [step, hm, if_true, Shared.dropHandle, hone] at hp ⊢
            by_cases hpp : p = p'
            · subst hpp; simp [upd]
            · simp [upd, hpp]; exact h3 p hp
        · refine ⟨fun p => ?_, fun p => ?_, fun p hp => ?_⟩
          · by_cases hpp : p = p'
            · subst hpp
              simp [step, hm, Shared.dropHandle, hone, upd,
                List.count_erase_self]
              omega
            · simp [step, hm, Shared.dropHandle, hone, upd, hpp, h1 p,
                List.count_erase_of_ne hpp]
          · by_cases hpp : p = p'
            · subst hpp
              have hnz : c.heap.rc p ≠ 0 := by omega
              simp [step, hm, Shared.dropHandle, hone, upd, (h2 p).mpr hnz]
              omega
            · simp [step, hm, Shared.dropHandle, hone, upd, hpp, h2 p]
          · simp only [step, hm, if_true, Shared.dropHandle, hone] at hp ⊢
            have hne : p ≠ p' := by
              intro hEq; subst hEq
              have : c.heap.rc p = 0 := h3 p hp
              omega
            simp [upd, hne]
            exact h3 p hp
      · simpa [step, hm] using ⟨h1, h2, h3⟩
  | store p' v =>
      by_cases hm : p' ∈ c.live
      · have hcnt : 0 < c.live.count p' := List.count_pos_iff.mpr hm
        refine ⟨fun p => ?_, fun p => ?_, fun p hp => ?_⟩
        · simpa [step, hm, Shared.write] using h1 p
        · by_cases hpp : p = p'
          · subst hpp
            have hrc : c.heap.rc p ≠ 0 := by rw [h1]; omega
            simp [step, hm, Shared.write, upd, hrc]
          · simp [step, hm, Shared.write, upd, hpp, h2 p]
        · simp only [step, hm, if_true, Shared.write] at hp ⊢
          exact h3 p hp
      · simpa [step, hm] using ⟨h1, h2, h3⟩

theorem Inv_run {V : Type} (ops : List (Op V)) (c : Config V) (hc : Inv c) :
    Inv (run ops c) := by
  induction ops generalizing c with
  | nil => exact hc
  | cons op ops ih => exact ih _ (Inv_step c op hc)

/-- Claim C4: for every value `v`, constructing a handle with `new v` and
then dereferencing it yields `v`. -/
theorem C4_new_deref (V : Type) (v : V) (h : Heap V) :
    deref (new v h).1 (new v h).2 = some v := by
  simp [deref, new, upd]

theorem cloneN_fst {V : Type} (n : Nat) (p : Handle) (h : Heap V) :
    (cloneN n p h).1 = p := by
  induction n generalizing h with
  | zero => rfl
  | succ n ih => simpa [cloneN, clone] using ih _

/-- Claim C1: every handle obtained from `p` by any chain of `clone()`
calls is the very same allocation, so a write through the end of the
chain is immediately observable by dereferencing `p`; in particular,
with `h1 = new 0` and `h2 = h1.clone()`, writing 5 through `h2` makes
dereferencing `h1` yield 5. -/
theorem C1_alias_mutation_visible (V : Type) (w : V) (h : Heap V)
    (p : Handle) (n : Nat) :
    (cloneN n p h).1 = p ∧
    deref p (write (cloneN n p h).1 w (cloneN n p h).2) = some w ∧
    deref (new (0 : Int) (Heap.empty Int)).1
      (write
        (clone (new (0 : Int) (Heap.empty Int)).1
          (new (0 : Int) (Heap.empty Int)).2).1
        5
        (clone (new (0 : Int) (Heap.empty Int)).1
          (new (0 : Int) (Heap.empty Int)).2).2) = some 5 := by
  refine ⟨cloneN_fst n p h, ?_, by decide⟩
  rw [cloneN_fst n p h]
  simp [deref, write, upd]

/-- Claim C2: handle equality is allocation identity — `idEq p q` holds
iff `p` and `q` are the same allocation; two independent `new`
constructions (in particular `new 12` twice) are never equal, while a
clone is equal to the handle it was cloned from. -/
theorem C2_identity_equality (V : Type) (v w : V) (h : Heap V)
    (p q : Handle) :
    (idEq p q = true ↔ p = q) ∧
    idEq (new v h).1 (new w (new v h).2).1 = false ∧
    idEq (clone p h).1 p = true ∧
    idEq (new (12 : Int) (Heap.empty Int)).1
      (new (12 : Int) (new (12 : Int) (Heap.empty Int)).2).1 = false := by
  refine ⟨by simp [idEq], ?_, by simp [idEq, clone], by decide⟩
  simp [idEq, new]

/-- Claim C3: `new` initializes the reference count to 1; `clone` returns
the same allocation and increments the count by one; along any action
sequence the count equals the number of live aliases; after one clone of
a fresh handle both handles report 2. -/
theorem C3_use_count (V : Type) (v : V) (h : Heap V) (p : Handle)
    (ops : List (Op V)) :
    use_count (new v h).1 (new v h).2 = 1 ∧
    ((clone p h).1 = p ∧ use_count p (clone p h).2 = use_count p h + 1) ∧
    (∀ q, use_count q (run ops (Config.empty V)).heap
        = (run ops (Config.empty V)).live.count q) ∧
    (use_count (new (0 : Int) (Heap.empty Int)).1
        (clone (new (0 : Int) (Heap.empty Int)).1
          (new (0 : Int) (Heap.empty Int)).2).2 = 2 ∧
      use_count
        (clone (new (0 : Int) (Heap.empty Int)).1
          (new (0 : Int) (Heap.empty Int)).2).1
        (clone (new (0 : Int) (Heap.empty Int)).1
          (new (0 : Int) (Heap.empty Int)).2).2 = 2) := by
  refine ⟨by simp [use_count, new, upd], ⟨rfl, by simp [use_count, clone, upd]⟩,
    fun q => (Inv_run ops _ (Inv_empty V)).1 q, by decide⟩

/-- Claim C6: two default-constructions produce two fresh, unaliased
allocations: the handles are not identity-equal, each has use count 1,
and a write through one leaves the value seen through the other
unchanged. -/
theorem C6_default_fresh (V : Type) (d w : V) (h : Heap V) :
    idEq (defaultNew d h).1 (defaultNew d (defaultNew d h).2).1 = false ∧
    use_count (defaultNew d h).1 (defaultNew d (defaultNew d h).2).2 = 1 ∧
    use_count (defaultNew d (defaultNew d h).2).1
      (defaultNew d (defaultNew d h).2).2 = 1 ∧
    deref (defaultNew d h).1
        (write (defaultNew d (defaultNew d h).2).1 w
          (defaultNew d (defaultNew d h).2).2)
      = deref (defaultNew d h).1 (defaultNew d (defaultNew d h).2).2 ∧
    deref (defaultNew d (defaultNew d h).2).1
        (write (defaultNew d h).1 w (defaultNew d (defaultNew d h).2).2)
      = deref (defaultNew d (defaultNew d h).2).1
          (defaultNew d (defaultNew d h).2).2 := by
  simp [defaultNew, new, idEq, use_count, deref, write, upd]

/-- Claim C7: along every action sequence from the empty configuration
the reference-counting invariant holds — each allocation's count equals
its number of live handles and its value exists exactly while the count
is nonzero; moreover dropping a handle decrements the count, and the
value is destroyed precisely when the count reaches zero (or was already
gone). -/
theorem C7_destruction (V : Type) (ops : List (Op V)) (p : Handle)
    (h : Heap V) :
    Inv (run ops (Config.empty V)) ∧
    (dropHandle p h).rc p = h.rc p - 1 ∧
    ((dropHandle p h).val p = none ↔ (h.rc p ≤ 1 ∨ h.val p = none)) := by
  refine ⟨Inv_run ops _ (Inv_empty V), ?_, ?_⟩
  · by_cases hone : h.rc p ≤ 1
    · simp [dropHandle, hone, upd]
    · simp [dropHandle, hone, upd]
  · by_cases hone : h.rc p ≤ 1
    · simp [dropHandle, hone, upd]
    · simp [dropHandle, hone, upd]

/-- Claim C8: the `From<T>` conversion is the same construction as `new`:
it produces a handle wrapping `v` in a fresh allocation (the next free
identifier) with reference count 1. -/
theorem C8_from_equiv_new (V : Type) (v : V) (h : Heap V) :
    fromValue v h = new v h ∧
    deref (fromValue v h).1 (fromValue v h).2 = some v ∧
    use_count (fromValue v h).1 (fromValue v h).2 = 1 ∧
    (fromValue v h).1 = h.next := by
  refine ⟨rfl, by simp [fromValue, deref, new, upd],
    by simp [fromValue, use_count, new, upd], rfl⟩

/-- Claim C9: the multi-value arm of `shared!` applied to `{1,2,3}`
builds exactly the handle that `Shared::<&[i32]>::new(&[1,2,3])` builds
(same wrapped-value type — an integer-slice view, `List Int` — and same
result), and for every list of integer literals the arm agrees with the
explicit slice construction; its wrapped-value type is fixed to integer
slices by its very signature. -/
theorem C9_shared_macro_multi (h : Heap (List Int)) :
    sharedMultiMacro [1, 2, 3] h = Shared.new ([1, 2, 3] : List Int) h ∧
    deref (sharedMultiMacro [1, 2, 3] h).1 (sharedMultiMacro [1, 2, 3] h).2
      = some [1, 2, 3] ∧
    ∀ vs : List Int, sharedMultiMacro vs h = Shared.new vs h := by
  refine ⟨rfl, by simp [sharedMultiMacro, deref, Shared.new, upd],
    fun vs => rfl⟩

/-- Claim C10: the read-only observers and duplication never modify any
wrapped value: cloning leaves every dereference unchanged, and
`use_count`, equality, read-only dereference and debug formatting leave
the heap untouched. -/
theorem C10_observers_frame (V : Type) (p q r : Handle) (h : Heap V)
    (f : V → String) :
    deref r (clone p h).2 = deref r h ∧
    (use_countS p h).2 = h ∧
    (idEqS p q h).2 = h ∧
    (derefS p h).2 = h ∧
    (debugFmt f p h).2 = h :=
  ⟨rfl, rfl, rfl, rfl, rfl⟩

/-- The `tests::example` scenario of `src/lib.rs`, step by step: three
handles wrapping 228, 1337, 177013; three placeholder handles wrapping 0;
a clone of each original pushed into the work zone; then every work-zone
handle incremented twice (once via `as_mut`, once via implicit mutable
dereference).  Returns the final heap, the original handles, and the
placeholder handles. -/
def exampleScenario : Heap Int × List Handle × List Handle :=
  let a := Shared.new 228 (Heap.empty Int)
  let b := Shared.new 1337 a.2
  let c := Shared.new 177013 b.2
  let z1 := Shared.new 0 c.2
  let z2 := Shared.new 0 z1.2
  let z3 := Shared.new 0 z2.2
  let a2 := Shared.clone a.1 z3.2
  let b2 := Shared.clone b.1 a2.2
  let c2 := Shared.clone c.1 b2.2
  let workZone := [z1.1, z2.1, z3.1, a2.1, b2.1, c2.1]
  let hfin := workZone.foldl
    (fun hh p =>
      Shared.mutate p (fun x => x + 1) (Shared.mutate p (fun x => x + 1) hh))
    c2.2
  (hfin, [a.1, b.1, c.1], [z1.1, z2.1, z3.1])

/-- Claim C5: after the end-to-end scenario the three original handles
read 230, 1339 and 177015 (mutation through the clones propagated back),
the three placeholder handles read 2, and no placeholder aliases any
original. -/
theorem C5_example_scenario :
    exampleScenario.2.1.map (fun p => deref p exampleScenario.1)
      = [some 230, some 1339, some 177015] ∧
    exampleScenario.2.2.map (fun p => deref p exampleScenario.1)
      = [some 2, some 2, some 2] ∧
    (exampleScenario.2.2.all fun p =>
      exampleScenario.2.1.all fun q => !(idEq p q)) = true := by
  refine ⟨by decide, by decide, by decide⟩

end SharedRs
